import Mathlib

/-!
Shallow embedding of the attendance record store and aggregation layer of
`src/database.py` (class `Database`), together with proofs of the spec's
claims about it.

Modelling choices:
* The SQLite tables `users` and `attendance` are lists of rows plus the
  AUTOINCREMENT counters; every query is translated row-for-row from the SQL.
* SQLite stores the `date` column as text and compares it bytewise, so dates
  are plain strings compared with the string order; subjects and names too.
* SQLite's `CHECK(status IN ('Present','Absent','Late'))` and the UNIQUE
  constraints raise `IntegrityError`, which the Python code turns into a
  `False` return, so the embedded operations return `Bool × DB`.
* Foreign keys are not enforced (SQLite's default, nothing turns them on),
  so attendance rows may reference absent users.
* Python float percentages are modelled over `ℚ`; `round(x, 2)` is modelled
  by `round2`.
* Optional text parameters go through `activeOpt`, mirroring Python's
  truthiness test `if start_date:` under which `None` and `""` both disable
  the filter.
-/

namespace AttendanceDB

/-- One row of the `users` table. -/
structure UserRow where
  id : Nat
  username : String
  password : String
  role : String
  name : String
  student_id : Option String
  email : Option String
deriving Repr, DecidableEq

/-- One row of the `attendance` table. -/
structure AttendanceRow where
  id : Nat
  student_id : String
  date : String
  status : String
  subject : String
  marked_by : String
  remarks : Option String
deriving Repr, DecidableEq

/-- The database state: both tables plus the AUTOINCREMENT counters. -/
structure DB where
  users : List UserRow
  attendance : List AttendanceRow
  nextUserId : Nat
  nextAttId : Nat
deriving Repr, DecidableEq

/-- The `CHECK(status IN ('Present', 'Absent', 'Late'))` constraint of the
`attendance` table. -/
def validStatus (s : String) : Bool :=
  s = "Present" || s = "Absent" || s = "Late"

/-- The `CHECK(role IN ('student', 'teacher'))` constraint of `users`. -/
def validRole (r : String) : Bool :=
  r = "student" || r = "teacher"

/-- SQLite compares TEXT values bytewise (BINARY collation); on the
codepoint lists this is plain lexicographic comparison, since UTF-8 byte
order agrees with codepoint order. -/
def strLtB : List Char → List Char → Bool
  | [], [] => false
  | [], _ :: _ => true
  | _ :: _, [] => false
  | a :: as, b :: bs =>
      if a < b then true
      else if b < a then false
      else strLtB as bs

/-- Strict TEXT comparison, as SQLite evaluates `x < y` on strings. -/
def textLt (s t : String) : Bool := strLtB s.data t.data

/-- Non-strict TEXT comparison, as SQLite evaluates `x <= y` on strings. -/
def textLe (s t : String) : Bool := !(textLt t s)

theorem strLtB_irrefl : ∀ l : List Char, strLtB l l = false
  | [] => rfl
  | _ :: as => by simp [strLtB, strLtB_irrefl as]

theorem strLtB_trans : ∀ l1 l2 l3 : List Char, strLtB l1 l2 = true →
    strLtB l2 l3 = true → strLtB l1 l3 = true
  | l1, [], l3, h1, _ => by cases l1 <;> simp [strLtB] at h1
  | l1, _ :: _, [], _, h2 => by simp [strLtB] at h2
  | [], _ :: _, _ :: _, _, _ => by simp [strLtB]
  | a :: as, b :: bs, c :: cs, h1, h2 => by
      simp only [strLtB] at h1 h2 ⊢
      rcases lt_trichotomy a b with hab | hab | hab
      · rcases lt_trichotomy b c with hbc | hbc | hbc
        · simp [hab.trans hbc]
        · subst hbc; simp [hab]
        · rw [if_neg (asymm hbc), if_pos hbc] at h2
          cases h2
      · subst hab
        rcases lt_trichotomy a c with hac | hac | hac
        · simp [hac]
        · subst hac
          rw [if_neg (lt_irrefl a), if_neg (lt_irrefl a)] at h1 h2 ⊢
          exact strLtB_trans as bs cs h1 h2
        · rw [if_neg (asymm hac), if_pos hac] at h2
          cases h2
      · rw [if_neg (asymm hab), if_pos hab] at h1
        cases h1

theorem strLtB_connex : ∀ l1 l2 : List Char, strLtB l1 l2 = false →
    strLtB l2 l1 = false → l1 = l2
  | [], [], _, _ => rfl
  | [], _ :: _, h1, _ => by simp [strLtB] at h1
  | _ :: _, [], _, h2 => by simp [strLtB] at h2
  | a :: as, b :: bs, h1, h2 => by
      rcases lt_trichotomy a b with hab | hab | hab
      · rw [strLtB, if_pos hab] at h1
        cases h1
      · subst hab
        rw [strLtB, if_neg (lt_irrefl a), if_neg (lt_irrefl a)] at h1 h2
        rw [strLtB_connex as bs h1 h2]
      · rw [strLtB, if_pos hab] at h2
        cases h2

theorem textLt_trans {s t u : String} (h1 : textLt s t = true)
    (h2 : textLt t u = true) : textLt s u = true :=
  strLtB_trans _ _ _ h1 h2

theorem textLt_asymm {s t : String} (h : textLt s t = true) :
    textLt t s = false := by
  unfold textLt at h ⊢
  cases hx : strLtB t.data s.data with
  | false => rfl
  | true =>
      have := strLtB_trans _ _ _ h hx
      rw [strLtB_irrefl] at this
      cases this

theorem textLt_connex {s t : String} (h1 : textLt s t = false)
    (h2 : textLt t s = false) : s = t :=
  String.ext (strLtB_connex s.data t.data h1 h2)

theorem textLe_total (s t : String) : textLe s t = true ∨ textLe t s = true := by
  unfold textLe
  cases h : textLt t s with
  | false => exact Or.inl rfl
  | true => exact Or.inr (by rw [textLt_asymm h]; rfl)

theorem textLe_trans {s t u : String} (h1 : textLe s t = true)
    (h2 : textLe t u = true) : textLe s u = true := by
  unfold textLe at h1 h2 ⊢
  cases hus : textLt u s with
  | false => rfl
  | true =>
      exfalso
      have hts : textLt t s = false := by simpa using h1
      have hut : textLt u t = false := by simpa using h2
      unfold textLt at hus hts hut
      cases htu : strLtB t.data u.data with
      | true =>
          have := strLtB_trans _ _ _ htu hus
          exact absurd this (by simp [hts])
      | false =>
          have hdata := strLtB_connex _ _ htu hut
          rw [← hdata] at hus
          exact absurd hus (by simp [hts])

theorem textLt_of_le_of_ne {s t : String} (h1 : textLe s t = true)
    (h2 : s ≠ t) : textLt s t = true := by
  unfold textLe at h1
  cases h : textLt s t with
  | true => rfl
  | false =>
      exfalso
      exact h2 (textLt_connex h (by simpa using h1))

/-- Embeds `Database.create_user`: INSERT into `users`; an `IntegrityError`
(UNIQUE `username`, UNIQUE `student_id`, or the role CHECK) yields `False`. -/
def create_user (db : DB) (username password role name : String)
    (student_id : Option String) (email : Option String) : Bool × DB :=
  if db.users.any (fun u => u.username == username) then
    (false, db)
  else if (match student_id with
      | some s => db.users.any (fun u => u.student_id == some s)
      | none => false) then
    (false, db)
  else if !(validRole role) then
    (false, db)
  else
    (true, { db with
      users := db.users ++
        [⟨db.nextUserId, username, password, role, name, student_id, email⟩],
      nextUserId := db.nextUserId + 1 })

/-- The row predicate of `mark_attendance`'s existence check
(`WHERE student_id = ? AND date = ? AND subject = ?`). -/
def tripleMatch (sid d subj : String) (a : AttendanceRow) : Bool :=
  a.student_id == sid && a.date == d && a.subject == subj

/-- Embeds `Database.mark_attendance`: look up the `(student_id, date, subject)`
triple; UPDATE the found row's `status`, `marked_by`, `remarks`, else INSERT
a new row.  A status outside the CHECK enum makes both the INSERT and the
UPDATE raise `IntegrityError`, caught and turned into `(false, unchanged)`;
the `date` column has no constraint, any string is stored. -/
def mark_attendance (db : DB) (student_id date status subject marked_by : String)
    (remarks : Option String) : Bool × DB :=
  if validStatus status then
    match db.attendance.find? (tripleMatch student_id date subject) with
    | some ex =>
        (true, { db with
          attendance := db.attendance.map (fun a =>
            if a.id == ex.id then
              { a with status := status, marked_by := marked_by, remarks := remarks }
            else a) })
    | none =>
        (true, { db with
          attendance := db.attendance ++
            [⟨db.nextAttId, student_id, date, status, subject, marked_by, remarks⟩],
          nextAttId := db.nextAttId + 1 })
  else (false, db)

/-- Embeds `Database.delete_attendance`: `DELETE FROM attendance WHERE id = ?`;
always commits and returns `True`. -/
def delete_attendance (db : DB) (attendance_id : Nat) : Bool × DB :=
  (true, { db with
    attendance := db.attendance.filter (fun a => !(a.id == attendance_id)) })

/-- Python truthiness on an optional TEXT parameter: `None` and `""` both
fail `if param:`, so both disable the corresponding filter clause. -/
def activeOpt : Option String → Option String
  | some s => if s = "" then none else some s
  | none => none

/-- The dynamically assembled `a.date >= ?` / `a.date <= ?` clauses. -/
def inDateRange (startO endO : Option String) (d : String) : Bool :=
  (match activeOpt startO with
    | some s => textLe s d
    | none => true) &&
  (match activeOpt endO with
    | some e => textLe d e
    | none => true)

/-- One output row of the attendance list queries (`a.*` joined with
`u.name AS student_name`). -/
structure AttendanceView where
  id : Nat
  student_id : String
  date : String
  status : String
  subject : String
  marked_by : String
  remarks : Option String
  student_name : String
deriving Repr, DecidableEq

/-- Build the view row for attendance row `a` joined with user `u`. -/
def mkView (a : AttendanceRow) (name : String) : AttendanceView :=
  ⟨a.id, a.student_id, a.date, a.status, a.subject, a.marked_by, a.remarks, name⟩

/-- The clause `JOIN users u ON a.student_id = u.student_id`: one output row per
matching user row. -/
def joinName (db : DB) (a : AttendanceRow) : List AttendanceView :=
  (db.users.filter (fun u => u.student_id == some a.student_id)).map
    (fun u => mkView a u.name)

/-- The clause `ORDER BY a.date DESC, a.subject` as a relation on view rows. -/
def studentOrd (x y : AttendanceView) : Prop :=
  textLt y.date x.date = true ∨
    (x.date = y.date ∧ textLe x.subject y.subject = true)

/-- The clause `ORDER BY a.date DESC, u.name` as a relation on view rows. -/
def allOrd (x y : AttendanceView) : Prop :=
  textLt y.date x.date = true ∨
    (x.date = y.date ∧ textLe x.student_name y.student_name = true)

instance : DecidableRel studentOrd := fun x y => by
  unfold studentOrd; infer_instance

instance : DecidableRel allOrd := fun x y => by
  unfold allOrd; infer_instance

instance : IsTotal AttendanceView studentOrd where
  total x y := by
    cases hxy : textLt x.date y.date with
    | true => exact Or.inr (Or.inl hxy)
    | false =>
        cases hyx : textLt y.date x.date with
        | true => exact Or.inl (Or.inl hyx)
        | false =>
            have h := textLt_connex hxy hyx
            rcases textLe_total x.subject y.subject with hs | hs
            · exact Or.inl (Or.inr ⟨h, hs⟩)
            · exact Or.inr (Or.inr ⟨h.symm, hs⟩)

instance : IsTrans AttendanceView studentOrd where
  trans x y z hxy hyz := by
    rcases hxy with h1 | ⟨h1, h1s⟩
    · rcases hyz with h2 | ⟨h2, _⟩
      · exact Or.inl (textLt_trans h2 h1)
      · exact Or.inl (h2 ▸ h1)
    · rcases hyz with h2 | ⟨h2, h2s⟩
      · exact Or.inl (h1 ▸ h2)
      · exact Or.inr ⟨h1.trans h2, textLe_trans h1s h2s⟩

instance : IsTotal AttendanceView allOrd where
  total x y := by
    cases hxy : textLt x.date y.date with
    | true => exact Or.inr (Or.inl hxy)
    | false =>
        cases hyx : textLt y.date x.date with
        | true => exact Or.inl (Or.inl hyx)
        | false =>
            have h := textLt_connex hxy hyx
            rcases textLe_total x.student_name y.student_name with hs | hs
            · exact Or.inl (Or.inr ⟨h, hs⟩)
            · exact Or.inr (Or.inr ⟨h.symm, hs⟩)

instance : IsTrans AttendanceView allOrd where
  trans x y z hxy hyz := by
    rcases hxy with h1 | ⟨h1, h1s⟩
    · rcases hyz with h2 | ⟨h2, _⟩
      · exact Or.inl (textLt_trans h2 h1)
      · exact Or.inl (h2 ▸ h1)
    · rcases hyz with h2 | ⟨h2, h2s⟩
      · exact Or.inl (h1 ▸ h2)
      · exact Or.inr ⟨h1.trans h2, textLe_trans h1s h2s⟩

/-- Embeds `Database.get_student_attendance`: the student's rows, date-range
filtered, joined with `users`, `ORDER BY a.date DESC, a.subject`. -/
def get_student_attendance (db : DB) (student_id : String)
    (start_date end_date : Option String) : List AttendanceView :=
  List.insertionSort studentOrd
    (((db.attendance.filter (fun a =>
        a.student_id == student_id && inDateRange start_date end_date a.date)).map
      (joinName db)).flatten)

/-- Embeds `Database.get_all_attendance`: all rows, date-range and exact-subject
filtered, joined with `users`, `ORDER BY a.date DESC, u.name`. -/
def get_all_attendance (db : DB)
    (start_date end_date subject : Option String) : List AttendanceView :=
  List.insertionSort allOrd
    (((db.attendance.filter (fun a =>
        inDateRange start_date end_date a.date &&
        (match activeOpt subject with
          | some s => a.subject == s
          | none => true))).map
      (joinName db)).flatten)

/-- Python's `round(x, 2)` over `ℚ`. -/
def round2 (q : ℚ) : ℚ := (round (q * 100) : ℤ) / 100

/-- The aggregate scan of the statistics queries:
`COUNT(*)`, `SUM(CASE WHEN status = 'Present' ...)` and the two siblings,
accumulated row by row as the SQL engine does. -/
def tally (rows : List AttendanceRow) : Nat × Nat × Nat × Nat :=
  rows.foldl (fun acc a =>
    (acc.1 + 1,
     acc.2.1 + (if a.status == "Present" then 1 else 0),
     acc.2.2.1 + (if a.status == "Absent" then 1 else 0),
     acc.2.2.2 + (if a.status == "Late" then 1 else 0)))
    (0, 0, 0, 0)

/-- Output record of `get_attendance_statistics`. -/
structure Stats where
  total : Nat
  present : Nat
  absent : Nat
  late : Nat
  percentage : ℚ
deriving Repr, DecidableEq

/-- Embeds `Database.get_attendance_statistics`: tallies over the student's
attendance rows (no join with `users`), percentage zero-guarded then
rounded to 2 decimals. -/
def get_attendance_statistics (db : DB) (student_id : String) : Stats :=
  let t := tally (db.attendance.filter (fun a => a.student_id == student_id))
  { total := t.1, present := t.2.1, absent := t.2.2.1, late := t.2.2.2,
    percentage :=
      round2 (if t.1 > 0 then (t.2.1 : ℚ) / (t.1 : ℚ) * 100 else 0) }

/-- Output record of `get_subject_wise_statistics`. -/
structure SubjectStats where
  subject : String
  total : Nat
  present : Nat
  absent : Nat
  late : Nat
  percentage : ℚ
deriving Repr, DecidableEq

/-- The `ORDER BY subject` relation of the grouped statistics query. -/
def subjLe (s t : String) : Prop := textLe s t = true

instance : DecidableRel subjLe := fun s t => by
  unfold subjLe; infer_instance

instance : IsTotal String subjLe where
  total s t := textLe_total s t

instance : IsTrans String subjLe where
  trans _ _ _ h1 h2 := textLe_trans h1 h2

/-- Embeds `Database.get_subject_wise_statistics`: `GROUP BY subject ORDER BY
subject` over the student's rows, with the same per-group tallies and the
same zero-guarded rounded percentage. -/
def get_subject_wise_statistics (db : DB) (student_id : String) :
    List SubjectStats :=
  let rows := db.attendance.filter (fun a => a.student_id == student_id)
  let subjects := List.insertionSort subjLe (rows.map (·.subject)).dedup
  subjects.map (fun s =>
    let t := tally (rows.filter (fun a => a.subject == s))
    { subject := s, total := t.1, present := t.2.1, absent := t.2.2.1,
      late := t.2.2.2,
      percentage :=
        round2 (if t.1 > 0 then (t.2.1 : ℚ) / (t.1 : ℚ) * 100 else 0) })

/-! ## Helper lemmas -/

/-- The aggregate fold with an arbitrary starting accumulator. -/
theorem tally_foldl (rows : List AttendanceRow) (t p b l : Nat) :
    rows.foldl (fun acc a =>
      (acc.1 + 1,
       acc.2.1 + (if a.status == "Present" then 1 else 0),
       acc.2.2.1 + (if a.status == "Absent" then 1 else 0),
       acc.2.2.2 + (if a.status == "Late" then 1 else 0))) (t, p, b, l) =
    (t + rows.length,
     p + rows.countP (fun a => a.status == "Present"),
     b + rows.countP (fun a => a.status == "Absent"),
     l + rows.countP (fun a => a.status == "Late")) := by
  induction rows generalizing t p b l with
  | nil => simp
  | cons a rows ih =>
      simp only [List.foldl_cons, List.countP_cons, List.length_cons, ih,
        Prod.mk.injEq]
      refine ⟨by omega, by omega, by omega, by omega⟩

/-- The aggregate scan computes the exact tallies. -/
theorem tally_eq (rows : List AttendanceRow) :
    tally rows =
      (rows.length,
       rows.countP (fun a => a.status == "Present"),
       rows.countP (fun a => a.status == "Absent"),
       rows.countP (fun a => a.status == "Late")) := by
  unfold tally
  rw [tally_foldl]
  simp

/-- A fixed database used by the concrete witnesses. -/
def dbEmpty : DB := ⟨[], [], 1, 1⟩

/-! ## C2: overall statistics -/

/-- C2: `get_attendance_statistics` returns the exact tallies of the
student's records (`total` the number of records, `present`/`absent`/`late`
the counts of the exact status values, only `Present` in the numerator) and
the zero-guarded percentage `present / total * 100` rounded to 2 decimals,
with all-zero output when the student has no records. -/
theorem get_attendance_statistics_correct (db : DB) (sid : String) :
    ((get_attendance_statistics db sid).total =
      (db.attendance.filter (fun a => a.student_id == sid)).length) ∧
    ((get_attendance_statistics db sid).present =
      (db.attendance.filter (fun a => a.student_id == sid)).countP
        (fun a => a.status == "Present")) ∧
    ((get_attendance_statistics db sid).absent =
      (db.attendance.filter (fun a => a.student_id == sid)).countP
        (fun a => a.status == "Absent")) ∧
    ((get_attendance_statistics db sid).late =
      (db.attendance.filter (fun a => a.student_id == sid)).countP
        (fun a => a.status == "Late")) ∧
    ((get_attendance_statistics db sid).percentage =
      if (get_attendance_statistics db sid).total = 0 then 0
      else round2 (((get_attendance_statistics db sid).present : ℚ) /
        ((get_attendance_statistics db sid).total : ℚ) * 100)) ∧
    (db.attendance.filter (fun a => a.student_id == sid) = [] →
      get_attendance_statistics db sid = ⟨0, 0, 0, 0, 0⟩) := by
  refine ⟨?_, ?_, ?_, ?_, ?_, ?_⟩
  · simp [get_attendance_statistics, tally_eq]
  · simp [get_attendance_statistics, tally_eq]
  · simp [get_attendance_statistics, tally_eq]
  · simp [get_attendance_statistics, tally_eq]
  · simp only [get_attendance_statistics, tally_eq]
    by_cases h : (db.attendance.filter (fun a => a.student_id == sid)).length = 0
    · simp [h, round2]
    · simp [h, Nat.pos_of_ne_zero h]
  · intro h
    simp [get_attendance_statistics, h, tally, round2]

/-- C2 witness: concrete evaluation on a student with no records. -/
theorem get_attendance_statistics_correct_witness :
    get_attendance_statistics dbEmpty "S1" = ⟨0, 0, 0, 0, 0⟩ :=
  (get_attendance_statistics_correct dbEmpty "S1").2.2.2.2.2 (by decide)

/-! ## C4: idempotent delete -/

/-- C4: `delete_attendance` returns success even for a non-existent id
(leaving the store unchanged), and a second delete of the same id succeeds
and changes no data. -/
theorem delete_attendance_idem (db : DB) (aid : Nat) :
    (delete_attendance db aid).1 = true ∧
    (delete_attendance (delete_attendance db aid).2 aid).1 = true ∧
    (delete_attendance (delete_attendance db aid).2 aid).2 =
      (delete_attendance db aid).2 ∧
    ((∀ a ∈ db.attendance, a.id ≠ aid) → (delete_attendance db aid).2 = db) := by
  refine ⟨rfl, rfl, ?_, ?_⟩
  · simp only [delete_attendance, List.filter_filter]
    congr 1
    apply List.filter_congr
    intro a _
    cases h : (a.id == aid) <;> simp [h]
  · intro h
    have : db.attendance.filter (fun a => !(a.id == aid)) = db.attendance := by
      apply List.filter_eq_self.2
      intro a ha
      simpa using h a ha
    simp [delete_attendance, this]

/-- C4 witness: deleting id 5, absent from a one-row store, succeeds twice
and never changes the data. -/
theorem delete_attendance_idem_witness :
    (delete_attendance ⟨[], [⟨1, "S1", "2024-01-01", "Present", "Math", "T", none⟩], 1, 2⟩ 5).1 = true ∧
    (delete_attendance ⟨[], [⟨1, "S1", "2024-01-01", "Present", "Math", "T", none⟩], 1, 2⟩ 5).2 =
      ⟨[], [⟨1, "S1", "2024-01-01", "Present", "Math", "T", none⟩], 1, 2⟩ :=
  ⟨(delete_attendance_idem ⟨[], [⟨1, "S1", "2024-01-01", "Present", "Math", "T", none⟩], 1, 2⟩ 5).1,
   (delete_attendance_idem ⟨[], [⟨1, "S1", "2024-01-01", "Present", "Math", "T", none⟩], 1, 2⟩ 5).2.2.2
     (by decide)⟩

/-! ## C5: ordering of the per-student listing -/

/-- C5: `get_student_attendance` returns its rows sorted by date
descending, with ties on equal dates broken by subject ascending. -/
theorem get_student_attendance_sorted (db : DB) (sid : String)
    (s e : Option String) :
    List.Pairwise
      (fun x y : AttendanceView =>
        textLt y.date x.date = true ∨
          (x.date = y.date ∧ textLe x.subject y.subject = true))
      (get_student_attendance db sid s e) :=
  List.sorted_insertionSort studentOrd _

/-! ## C8: validation of status and date -/

/-- C8 counterexample: a syntactically invalid calendar date is not
rejected — `mark_attendance` returns success and stores the record with
`date = "not-a-date"`. -/
theorem mark_attendance_stores_invalid_date :
    (mark_attendance dbEmpty "S1" "not-a-date" "Present" "Math" "T1" none).1 = true ∧
    (mark_attendance dbEmpty "S1" "not-a-date" "Present" "Math" "T1" none).2.attendance =
      [⟨1, "S1", "not-a-date", "Present", "Math", "T1", none⟩] := by
  exact ⟨rfl, rfl⟩

/-- C8 amended: a status outside {Present, Absent, Late} is rejected by the
storage-layer CHECK constraint — the call returns failure and leaves the
store unchanged — while the date is not validated at all: with a valid
status the call succeeds whatever string the date is. -/
theorem mark_attendance_validation (db : DB)
    (sid d st subj mb : String) (rem : Option String) :
    (validStatus st = false → mark_attendance db sid d st subj mb rem = (false, db)) ∧
    (validStatus st = true → (mark_attendance db sid d st subj mb rem).1 = true) := by
  constructor
  · intro h
    simp [mark_attendance, h]
  · intro h
    cases hfind : db.attendance.find? (tripleMatch sid d subj) <;>
      simp [mark_attendance, h, hfind]

/-- C8 amended witness: a bogus status is refused, a bogus date accepted. -/
theorem mark_attendance_validation_witness :
    mark_attendance dbEmpty "S1" "2024-01-01" "Sick" "Math" "T1" none = (false, dbEmpty) ∧
    (mark_attendance dbEmpty "S1" "not-a-date" "Late" "Math" "T1" none).1 = true :=
  ⟨(mark_attendance_validation dbEmpty "S1" "2024-01-01" "Sick" "Math" "T1" none).1 (by decide),
   (mark_attendance_validation dbEmpty "S1" "not-a-date" "Late" "Math" "T1" none).2 (by decide)⟩

/-! ## C1: upsert uniqueness -/

/-- Number of attendance rows matching a `(student_id, date, subject)`
triple. -/
def tripleCount (db : DB) (sid d subj : String) : Nat :=
  (db.attendance.filter (tripleMatch sid d subj)).length

/-- The upsert invariant: at most one attendance row per triple. -/
def UpsertInv (db : DB) : Prop :=
  ∀ sid d subj, tripleCount db sid d subj ≤ 1

/-- Apply a sequence of `mark_attendance` calls for one fixed triple; each
call supplies `(status, marked_by, remarks)`. -/
def applyMarks (db : DB) (sid d subj : String)
    (calls : List (String × String × Option String)) : DB :=
  calls.foldl (fun db c => (mark_attendance db sid d c.1 subj c.2.1 c.2.2).2) db

theorem eq_of_mem_of_length_le_one {α : Type} {l : List α} (h : l.length ≤ 1)
    {a b : α} (ha : a ∈ l) (hb : b ∈ l) : a = b := by
  match l with
  | [] => cases ha
  | [x] =>
      rw [List.mem_singleton] at ha hb
      rw [ha, hb]
  | x :: y :: t =>
      simp [List.length_cons] at h

/-- The UPDATE branch rewrites only `status`, `marked_by`, `remarks`, so
triple membership of every row is unchanged. -/
theorem tripleMatch_update (st mb : String) (rem : Option String)
    (exId : Nat) (t1 t2 t3 : String) (a : AttendanceRow) :
    tripleMatch t1 t2 t3
      (if a.id == exId then
        { a with status := st, marked_by := mb, remarks := rem } else a) =
    tripleMatch t1 t2 t3 a := by
  cases h : (a.id == exId) <;> simp [h, tripleMatch]

/-- One `mark_attendance` call with a valid status preserves the upsert
invariant, leaves exactly one row for the written triple, and that row
carries the call's `status`, `marked_by`, `remarks`. -/
theorem mark_attendance_step (db : DB) (sid d st subj mb : String)
    (rem : Option String) (hinv : UpsertInv db) (hst : validStatus st = true) :
    UpsertInv (mark_attendance db sid d st subj mb rem).2 ∧
    tripleCount (mark_attendance db sid d st subj mb rem).2 sid d subj = 1 ∧
    ∀ a ∈ (mark_attendance db sid d st subj mb rem).2.attendance,
      tripleMatch sid d subj a = true →
        a.status = st ∧ a.marked_by = mb ∧ a.remarks = rem := by
  cases hfind : db.attendance.find? (tripleMatch sid d subj) with
  | none =>
      have hnone : ∀ a ∈ db.attendance, ¬ tripleMatch sid d subj a = true :=
        fun a ha => by simpa using List.find?_eq_none.1 hfind a ha
      have hfilter : db.attendance.filter (tripleMatch sid d subj) = [] :=
        List.filter_eq_nil_iff.2 (fun a ha => by simpa using hnone a ha)
      have hdb : (mark_attendance db sid d st subj mb rem).2 =
          { db with
            attendance := db.attendance ++
              [⟨db.nextAttId, sid, d, st, subj, mb, rem⟩],
            nextAttId := db.nextAttId + 1 } := by
        simp [mark_attendance, hst, hfind]
      rw [hdb]
      refine ⟨?_, ?_, ?_⟩
      · intro sid' d' subj'
        simp only [tripleCount, List.filter_append, List.length_append]
        cases hm : tripleMatch sid' d' subj' ⟨db.nextAttId, sid, d, st, subj, mb, rem⟩ with
        | false =>
            simp only [List.filter_cons, hm, if_neg, List.filter_nil]
            simpa using hinv sid' d' subj'
        | true =>
            simp only [tripleMatch, Bool.and_eq_true, beq_iff_eq] at hm
            obtain ⟨⟨h1, h2⟩, h3⟩ := hm
            subst h1; subst h2; subst h3
            simp only [hfilter, List.length_nil, Nat.zero_add]
            exact le_trans (List.length_filter_le _ _) (by simp)
      · simp only [tripleCount, List.filter_append, hfilter]
        simp [tripleMatch]
      · intro a ha hm
        simp only [List.mem_append, List.mem_singleton] at ha
        rcases ha with ha | ha
        · exact absurd hm (hnone a ha)
        · subst ha
          exact ⟨rfl, rfl, rfl⟩
  | some ex =>
      have hex_mem : ex ∈ db.attendance := List.mem_of_find?_eq_some hfind
      have hex_match : tripleMatch sid d subj ex = true := List.find?_some hfind
      have hdb : (mark_attendance db sid d st subj mb rem).2 =
          { db with attendance := db.attendance.map (fun a =>
              if a.id == ex.id then
                { a with status := st, marked_by := mb, remarks := rem }
              else a) } := by
        simp [mark_attendance, hst, hfind]
      have hcount : ∀ t1 t2 t3,
          tripleCount (mark_attendance db sid d st subj mb rem).2 t1 t2 t3 =
          tripleCount db t1 t2 t3 := by
        intro t1 t2 t3
        simp only [tripleCount, hdb]
        rw [← List.countP_eq_length_filter, ← List.countP_eq_length_filter,
          List.countP_map]
        refine List.countP_congr (fun a ha => ?_)
        rw [Function.comp_apply, tripleMatch_update]
      have hone : tripleCount db sid d subj = 1 := by
        have hle := hinv sid d subj
        have hpos : 0 < tripleCount db sid d subj := by
          apply List.length_pos.2
          intro hnil
          have : ex ∈ db.attendance.filter (tripleMatch sid d subj) :=
            List.mem_filter.2 ⟨hex_mem, hex_match⟩
          rw [hnil] at this
          cases this
        omega
      refine ⟨?_, ?_, ?_⟩
      · intro sid' d' subj'
        rw [hcount]
        exact hinv sid' d' subj'
      · rw [hcount, hone]
      · intro a ha hm
        rw [hdb] at ha
        simp only [List.mem_map] at ha
        obtain ⟨a0, ha0, rfl⟩ := ha
        rw [tripleMatch_update] at hm
        have ha0f : a0 ∈ db.attendance.filter (tripleMatch sid d subj) :=
          List.mem_filter.2 ⟨ha0, hm⟩
        have hexf : ex ∈ db.attendance.filter (tripleMatch sid d subj) :=
          List.mem_filter.2 ⟨hex_mem, hex_match⟩
        have : a0 = ex := eq_of_mem_of_length_le_one (hinv sid d subj) ha0f hexf
        subst this
        simp

/-- C1: from any state satisfying the upsert invariant, any non-empty
sequence of `mark_attendance` calls for a fixed `(student_id, date,
subject)` triple (each with a valid status) preserves the invariant and
leaves exactly one record for the triple, whose `status`, `marked_by` and
`remarks` are the most recent call's arguments — a later call for an
existing triple updates in place and never duplicates. -/
theorem mark_attendance_upsert_unique (db : DB) (sid d subj : String)
    (pre : List (String × String × Option String))
    (lastc : String × String × Option String)
    (hinv : UpsertInv db)
    (hval : ∀ c ∈ pre ++ [lastc], validStatus c.1 = true) :
    UpsertInv (applyMarks db sid d subj (pre ++ [lastc])) ∧
    tripleCount (applyMarks db sid d subj (pre ++ [lastc])) sid d subj = 1 ∧
    ∀ a ∈ (applyMarks db sid d subj (pre ++ [lastc])).attendance,
      tripleMatch sid d subj a = true →
        a.status = lastc.1 ∧ a.marked_by = lastc.2.1 ∧ a.remarks = lastc.2.2 := by
  induction pre generalizing db with
  | nil =>
      have hl : validStatus lastc.1 = true := hval lastc (by simp)
      have hstep := mark_attendance_step db sid d lastc.1 subj lastc.2.1 lastc.2.2
        hinv hl
      simpa [applyMarks] using hstep
  | cons c pre ih =>
      have hc : validStatus c.1 = true := hval c (by simp)
      have hstep := mark_attendance_step db sid d c.1 subj c.2.1 c.2.2 hinv hc
      have happly : applyMarks db sid d subj ((c :: pre) ++ [lastc]) =
          applyMarks (mark_attendance db sid d c.1 subj c.2.1 c.2.2).2
            sid d subj (pre ++ [lastc]) := by
        simp [applyMarks]
      rw [happly]
      exact ih (mark_attendance db sid d c.1 subj c.2.1 c.2.2).2 hstep.1
        (fun x hx => hval x (by simp at hx ⊢; tauto))

/-- C1 witness: two calls for the same triple on an empty store leave one
record carrying the second call's fields. -/
theorem mark_attendance_upsert_unique_witness :
    UpsertInv (applyMarks dbEmpty "S1" "2024-01-01" "Math"
      [("Present", "T1", none), ("Absent", "T2", some "sick")]) ∧
    tripleCount (applyMarks dbEmpty "S1" "2024-01-01" "Math"
      [("Present", "T1", none), ("Absent", "T2", some "sick")])
      "S1" "2024-01-01" "Math" = 1 ∧
    ∀ a ∈ (applyMarks dbEmpty "S1" "2024-01-01" "Math"
      [("Present", "T1", none), ("Absent", "T2", some "sick")]).attendance,
      tripleMatch "S1" "2024-01-01" "Math" a = true →
        a.status = "Absent" ∧ a.marked_by = "T2" ∧ a.remarks = some "sick" :=
  mark_attendance_upsert_unique dbEmpty "S1" "2024-01-01" "Math"
    [("Present", "T1", none)] ("Absent", "T2", some "sick")
    (fun sid d subj => by simp [tripleCount, dbEmpty])
    (by decide)

/-! ## C7: inclusive range filter on the per-student listing -/

/-- Unfold the dynamically built filter clauses as bound conditions. -/
theorem inDateRange_iff (s e : Option String) (d : String) :
    inDateRange s e d = true ↔
      ((∀ x, activeOpt s = some x → textLe x d = true) ∧
       (∀ x, activeOpt e = some x → textLe d x = true)) := by
  unfold inDateRange
  cases hs : activeOpt s <;> cases he : activeOpt e <;> simp

/-- Membership in the joined view rows of one attendance row. -/
theorem mem_joinName (db : DB) (a : AttendanceRow) (r : AttendanceView) :
    r ∈ joinName db a ↔
      ∃ u ∈ db.users, u.student_id = some a.student_id ∧ r = mkView a u.name := by
  unfold joinName
  simp only [List.mem_map, List.mem_filter, beq_iff_eq]
  constructor
  · rintro ⟨u, ⟨hu, hsid⟩, rfl⟩
    exact ⟨u, hu, hsid, rfl⟩
  · rintro ⟨u, hu, hsid, rfl⟩
    exact ⟨u, ⟨hu, hsid⟩, rfl⟩

/-- Membership characterization of `get_student_attendance`. -/
theorem get_student_attendance_mem (db : DB) (sid : String)
    (s e : Option String) (r : AttendanceView) :
    r ∈ get_student_attendance db sid s e ↔
      ∃ a ∈ db.attendance, a.student_id = sid ∧ inDateRange s e a.date = true ∧
        ∃ u ∈ db.users, u.student_id = some a.student_id ∧ r = mkView a u.name := by
  unfold get_student_attendance
  rw [List.mem_insertionSort]
  simp only [List.mem_flatten, List.mem_map]
  constructor
  · rintro ⟨l, ⟨a, ha, rfl⟩, hr⟩
    rw [mem_joinName] at hr
    obtain ⟨u, hu, hsid2, rfl⟩ := hr
    obtain ⟨ha_mem, hp⟩ := List.mem_filter.1 ha
    simp only [Bool.and_eq_true, beq_iff_eq] at hp
    exact ⟨a, ha_mem, hp.1, hp.2, u, hu, hsid2, rfl⟩
  · rintro ⟨a, ha, hsid, hrange, u, hu, hsid2, rfl⟩
    refine ⟨joinName db a, ⟨a, List.mem_filter.2 ⟨ha, ?_⟩, rfl⟩, ?_⟩
    · simp [hsid, hrange]
    · rw [mem_joinName]
      exact ⟨u, hu, hsid2, rfl⟩

/-- C7: a view row is returned by `get_student_attendance` exactly when it
comes from one of that student's records (joined with its user row) whose
date lies within the inclusive `[start, end]` bounds; an inactive bound
(`None`, or `""` which Python's truthiness also treats as absent) imposes
no constraint. -/
theorem get_student_attendance_range (db : DB) (sid : String)
    (s e : Option String) (r : AttendanceView) :
    r ∈ get_student_attendance db sid s e ↔
      ∃ a ∈ db.attendance, a.student_id = sid ∧
        (∀ x, activeOpt s = some x → textLe x a.date = true) ∧
        (∀ x, activeOpt e = some x → textLe a.date x = true) ∧
        ∃ u ∈ db.users, u.student_id = some a.student_id ∧ r = mkView a u.name := by
  rw [get_student_attendance_mem]
  constructor
  · rintro ⟨a, ha, hsid, hrange, hrest⟩
    obtain ⟨h1, h2⟩ := (inDateRange_iff s e a.date).1 hrange
    exact ⟨a, ha, hsid, h1, h2, hrest⟩
  · rintro ⟨a, ha, hsid, h1, h2, hrest⟩
    exact ⟨a, ha, hsid, (inDateRange_iff s e a.date).2 ⟨h1, h2⟩, hrest⟩

/-- A fixed database used by the listing witnesses: one student with one
January record and one February record. -/
def dbList : DB :=
  ⟨[⟨1, "alice", "p", "student", "Alice", some "S1", none⟩],
   [⟨1, "S1", "2024-01-15", "Present", "Math", "T", none⟩,
    ⟨2, "S1", "2024-02-01", "Present", "Math", "T", none⟩],
   2, 3⟩

/-- C7 witness: with bounds `[2024-01-01, 2024-01-31]` the January record
is returned and the February record is not. -/
theorem get_student_attendance_range_witness :
    mkView ⟨1, "S1", "2024-01-15", "Present", "Math", "T", none⟩ "Alice" ∈
      get_student_attendance dbList "S1" (some "2024-01-01") (some "2024-01-31") ∧
    ¬ mkView ⟨2, "S1", "2024-02-01", "Present", "Math", "T", none⟩ "Alice" ∈
      get_student_attendance dbList "S1" (some "2024-01-01") (some "2024-01-31") := by
  constructor
  · exact (get_student_attendance_range dbList "S1" (some "2024-01-01")
      (some "2024-01-31") _).2
      ⟨⟨1, "S1", "2024-01-15", "Present", "Math", "T", none⟩, by decide, rfl,
        fun x hx => by
          rw [show activeOpt (some "2024-01-01") = some "2024-01-01" from by decide] at hx
          injection hx with h
          subst h
          decide,
        fun x hx => by
          rw [show activeOpt (some "2024-01-31") = some "2024-01-31" from by decide] at hx
          injection hx with h
          subst h
          decide,
        ⟨1, "alice", "p", "student", "Alice", some "S1", none⟩, by decide, rfl, rfl⟩
  · intro hmem
    obtain ⟨a, ha, hsid, h1, h2, u, hu, hsid2, hview⟩ :=
      (get_student_attendance_range dbList "S1" (some "2024-01-01")
        (some "2024-01-31") _).1 hmem
    have hdate : a.date = "2024-02-01" := (congrArg AttendanceView.date hview).symm
    have := h2 "2024-01-31" (by decide)
    rw [hdate] at this
    exact absurd this (by decide)

/-! ## C6: ordering and filters of the all-records listing -/

/-- A fixed database exhibiting the tie-break of `get_all_attendance`:
two records on the same date whose subject order ("Art" < "Zoology")
disagrees with the student-name order ("Alice" < "Bob"). -/
def dbTie : DB :=
  ⟨[⟨1, "alice", "p", "student", "Alice", some "S1", none⟩,
    ⟨2, "bob", "p", "student", "Bob", some "S2", none⟩],
   [⟨1, "S1", "2024-01-02", "Present", "Zoology", "T", none⟩,
    ⟨2, "S2", "2024-01-02", "Present", "Art", "T", none⟩],
   3, 3⟩

/-- C6 counterexample: `get_all_attendance` does not break date ties by
subject ascending — on `dbTie` it returns the Zoology row (Alice's) before
the Art row (Bob's). -/
theorem get_all_attendance_not_subject_ordered :
    ¬ List.Pairwise
      (fun x y : AttendanceView =>
        textLt y.date x.date = true ∨
          (x.date = y.date ∧ textLe x.subject y.subject = true))
      (get_all_attendance dbTie none none none) := by
  decide

/-- Membership characterization of `get_all_attendance`. -/
theorem get_all_attendance_mem (db : DB) (s e subj : Option String)
    (r : AttendanceView) :
    r ∈ get_all_attendance db s e subj ↔
      ∃ a ∈ db.attendance, inDateRange s e a.date = true ∧
        (∀ x, activeOpt subj = some x → a.subject = x) ∧
        ∃ u ∈ db.users, u.student_id = some a.student_id ∧ r = mkView a u.name := by
  unfold get_all_attendance
  rw [List.mem_insertionSort]
  simp only [List.mem_flatten, List.mem_map]
  constructor
  · rintro ⟨l, ⟨a, ha, rfl⟩, hr⟩
    rw [mem_joinName] at hr
    obtain ⟨u, hu, hsid2, rfl⟩ := hr
    obtain ⟨ha_mem, hp⟩ := List.mem_filter.1 ha
    simp only [Bool.and_eq_true] at hp
    refine ⟨a, ha_mem, hp.1, ?_, u, hu, hsid2, rfl⟩
    intro x hx
    have := hp.2
    rw [hx] at this
    simpa using this
  · rintro ⟨a, ha, hrange, hsubj, u, hu, hsid2, rfl⟩
    refine ⟨joinName db a, ⟨a, List.mem_filter.2 ⟨ha, ?_⟩, rfl⟩, ?_⟩
    · rw [Bool.and_eq_true]
      refine ⟨hrange, ?_⟩
      cases hx : activeOpt subj with
      | none => rfl
      | some x => simpa using hsubj x hx
    · rw [mem_joinName]
      exact ⟨u, hu, hsid2, rfl⟩

/-- C6 amended: `get_all_attendance` is sorted by date descending with ties
broken by student name ascending (not by subject), and supports the same
inclusive date-range filter plus an exact-match subject filter, unscoped by
student. -/
theorem get_all_attendance_spec (db : DB) (s e subj : Option String) :
    List.Pairwise
      (fun x y : AttendanceView =>
        textLt y.date x.date = true ∨
          (x.date = y.date ∧ textLe x.student_name y.student_name = true))
      (get_all_attendance db s e subj) ∧
    ∀ r, r ∈ get_all_attendance db s e subj ↔
      ∃ a ∈ db.attendance,
        (∀ x, activeOpt s = some x → textLe x a.date = true) ∧
        (∀ x, activeOpt e = some x → textLe a.date x = true) ∧
        (∀ x, activeOpt subj = some x → a.subject = x) ∧
        ∃ u ∈ db.users, u.student_id = some a.student_id ∧ r = mkView a u.name := by
  constructor
  · exact List.sorted_insertionSort allOrd _
  · intro r
    rw [get_all_attendance_mem]
    constructor
    · rintro ⟨a, ha, hrange, hrest⟩
      obtain ⟨h1, h2⟩ := (inDateRange_iff s e a.date).1 hrange
      exact ⟨a, ha, h1, h2, hrest⟩
    · rintro ⟨a, ha, h1, h2, hrest⟩
      exact ⟨a, ha, (inDateRange_iff s e a.date).2 ⟨h1, h2⟩, hrest⟩

/-- C6 amended witness: a concrete row passes the characterization of the
all-records listing. -/
theorem get_all_attendance_spec_witness :
    mkView ⟨2, "S2", "2024-01-02", "Present", "Art", "T", none⟩ "Bob" ∈
      get_all_attendance dbTie none none none :=
  ((get_all_attendance_spec dbTie none none none).2 _).2
    ⟨⟨2, "S2", "2024-01-02", "Present", "Art", "T", none⟩, by decide,
      fun x hx => by simp [activeOpt] at hx,
      fun x hx => by simp [activeOpt] at hx,
      fun x hx => by simp [activeOpt] at hx,
      ⟨2, "bob", "p", "student", "Bob", some "S2", none⟩, by decide, rfl, rfl⟩

/-! ## C3: subject-wise statistics -/

/-- The zero-guard inside the Python conditional expression commutes with
the rounding. -/
theorem round2_guard (n k : Nat) :
    round2 (if 0 < n then (k : ℚ) / (n : ℚ) * 100 else 0) =
      if n = 0 then 0 else round2 ((k : ℚ) / (n : ℚ) * 100) := by
  by_cases h : n = 0
  · simp [h, round2]
  · simp [h, Nat.pos_of_ne_zero h]

/-- Equation unfolding the `let`-bindings of `get_subject_wise_statistics`. -/
theorem get_subject_wise_statistics_eq (db : DB) (sid : String) :
    get_subject_wise_statistics db sid =
      (List.insertionSort subjLe
        (((db.attendance.filter (fun a => a.student_id == sid)).map
          (·.subject)).dedup)).map
        (fun s =>
          let t := tally ((db.attendance.filter
            (fun a => a.student_id == sid)).filter (fun a => a.subject == s))
          ⟨s, t.1, t.2.1, t.2.2.1, t.2.2.2,
            round2 (if t.1 > 0 then (t.2.1 : ℚ) / (t.1 : ℚ) * 100 else 0)⟩) :=
  rfl

/-- C3: `get_subject_wise_statistics` lists exactly one entry per distinct
subject the student has a record in (a subject without records for this
student never appears, whatever other students have), ordered by subject
strictly ascending, and each entry carries that subject's own tallies and
the zero-guarded percentage `present / total * 100` rounded to 2 decimals,
computed independently per subject. -/
theorem get_subject_wise_statistics_correct (db : DB) (sid : String) :
    List.Pairwise
      (fun x y : SubjectStats => textLt x.subject y.subject = true)
      (get_subject_wise_statistics db sid) ∧
    (∀ subj, (∃ st ∈ get_subject_wise_statistics db sid, st.subject = subj) ↔
      ∃ a ∈ db.attendance, a.student_id = sid ∧ a.subject = subj) ∧
    (∀ st ∈ get_subject_wise_statistics db sid,
      st.total = ((db.attendance.filter (fun a => a.student_id == sid)).filter
        (fun a => a.subject == st.subject)).length ∧
      st.present = ((db.attendance.filter (fun a => a.student_id == sid)).filter
        (fun a => a.subject == st.subject)).countP
          (fun a => a.status == "Present") ∧
      st.absent = ((db.attendance.filter (fun a => a.student_id == sid)).filter
        (fun a => a.subject == st.subject)).countP
          (fun a => a.status == "Absent") ∧
      st.late = ((db.attendance.filter (fun a => a.student_id == sid)).filter
        (fun a => a.subject == st.subject)).countP
          (fun a => a.status == "Late") ∧
      st.percentage = (if st.total = 0 then 0
        else round2 ((st.present : ℚ) / (st.total : ℚ) * 100))) := by
  refine ⟨?_, ?_, ?_⟩
  · have hsorted : List.Pairwise subjLe
        (List.insertionSort subjLe
          (((db.attendance.filter (fun a => a.student_id == sid)).map
            (·.subject)).dedup)) :=
      List.sorted_insertionSort subjLe _
    have hnodup : (List.insertionSort subjLe
        (((db.attendance.filter (fun a => a.student_id == sid)).map
          (·.subject)).dedup)).Nodup :=
      ((List.perm_insertionSort subjLe _).nodup_iff).2 (List.nodup_dedup _)
    have hlt := hsorted.imp₂
      (fun a b (hab : subjLe a b) hne => textLt_of_le_of_ne hab hne) hnodup
    rw [get_subject_wise_statistics_eq, List.pairwise_map]
    exact hlt
  · intro subj
    rw [get_subject_wise_statistics_eq]
    constructor
    · rintro ⟨st, hst, rfl⟩
      simp only [List.mem_map] at hst
      obtain ⟨s, hs, rfl⟩ := hst
      rw [List.mem_insertionSort, List.mem_dedup, List.mem_map] at hs
      obtain ⟨a, ha, rfl⟩ := hs
      obtain ⟨ham, hsid⟩ := List.mem_filter.1 ha
      exact ⟨a, ham, by simpa using hsid, rfl⟩
    · rintro ⟨a, ha, hsid, rfl⟩
      refine ⟨_, List.mem_map.2 ⟨a.subject, ?_, rfl⟩, rfl⟩
      rw [List.mem_insertionSort, List.mem_dedup, List.mem_map]
      exact ⟨a, List.mem_filter.2 ⟨ha, by simpa using hsid⟩, rfl⟩
  · intro st hst
    rw [get_subject_wise_statistics_eq] at hst
    simp only [List.mem_map] at hst
    obtain ⟨s, hs, rfl⟩ := hst
    refine ⟨by simp [tally_eq], by simp [tally_eq], by simp [tally_eq],
      by simp [tally_eq], ?_⟩
    exact round2_guard _ _

/-- C3 witness: on a concrete store the student's one subject is listed. -/
theorem get_subject_wise_statistics_correct_witness :
    ∃ st ∈ get_subject_wise_statistics dbList "S1", st.subject = "Math" :=
  ((get_subject_wise_statistics_correct dbList "S1").2.1 "Math").2
    ⟨⟨1, "S1", "2024-01-15", "Present", "Math", "T", none⟩, by decide, rfl, rfl⟩

/-! ## C9: explicit boolean success signals -/

/-- C9: the mutating storage operations signal success or failure as a
boolean instead of raising: `create_user` reports a username collision or
a duplicate non-NULL `student_id` as `false` with the store unchanged;
`mark_attendance` reports a constraint violation (invalid status) as
`false` with the store unchanged; `delete_attendance` reports success. -/
theorem storage_ops_boolean_signal (db : DB)
    (username pw role name : String) (sidU : String) (emailO : Option String)
    (sid d st subj mb : String) (rem : Option String) (aid : Nat) :
    (db.users.any (fun u => u.username == username) = true →
      create_user db username pw role name (some sidU) emailO = (false, db)) ∧
    (db.users.any (fun u => u.student_id == some sidU) = true →
      create_user db username pw role name (some sidU) emailO = (false, db)) ∧
    (validStatus st = false →
      mark_attendance db sid d st subj mb rem = (false, db)) ∧
    (delete_attendance db aid).1 = true := by
  refine ⟨?_, ?_, ?_, rfl⟩
  · intro h
    simp [create_user, h]
  · intro h
    cases hu : db.users.any (fun u => u.username == username) with
    | true => simp [create_user, hu]
    | false => simp [create_user, hu, h]
  · intro h
    simp [mark_attendance, h]

/-- C9 witness: on a store with one user, both duplicate-identifier inserts
fail, an invalid status fails, and a delete succeeds. -/
theorem storage_ops_boolean_signal_witness :
    (create_user dbList "alice" "x" "student" "A2" (some "S9") none =
      (false, dbList)) ∧
    (create_user dbList "carol" "x" "student" "C" (some "S1") none =
      (false, dbList)) ∧
    (mark_attendance dbList "S1" "2024-03-01" "Sick" "Math" "T" none =
      (false, dbList)) ∧
    (delete_attendance dbList 1).1 = true :=
  ⟨(storage_ops_boolean_signal dbList "alice" "x" "student" "A2" "S9" none
      "S1" "2024-03-01" "Sick" "Math" "T" none 1).1 (by decide),
   (storage_ops_boolean_signal dbList "carol" "x" "student" "C" "S1" none
      "S1" "2024-03-01" "Sick" "Math" "T" none 1).2.1 (by decide),
   (storage_ops_boolean_signal dbList "carol" "x" "student" "C" "S1" none
      "S1" "2024-03-01" "Sick" "Math" "T" none 1).2.2.1 (by decide),
   (storage_ops_boolean_signal dbList "carol" "x" "student" "C" "S1" none
      "S1" "2024-03-01" "Sick" "Math" "T" none 1).2.2.2⟩

/-! ## C10: join asymmetry between listing and statistics -/

/-- With at most one user row carrying the student's id, the join produces
at most one view row per attendance row. -/
theorem flatten_joinName_length (db : DB) (sid : String)
    (rows : List AttendanceRow)
    (hrows : ∀ a ∈ rows, a.student_id = sid)
    (huniq : (db.users.filter (fun u => u.student_id == some sid)).length ≤ 1) :
    ((rows.map (joinName db)).flatten).length ≤ rows.length := by
  induction rows with
  | nil => simp
  | cons a rows ih =>
      simp only [List.map_cons, List.flatten_cons, List.length_append,
        List.length_cons]
      have ha : a.student_id = sid := hrows a (by simp)
      have h1 : (joinName db a).length ≤ 1 := by
        simp only [joinName, List.length_map, ha]
        exact huniq
      have h2 := ih (fun x hx => hrows x (List.mem_cons_of_mem a hx))
      omega

/-- C10: `get_student_attendance` inner-joins `users` while
`get_attendance_statistics` does not; so (given the UNIQUE constraint on
`users.student_id`) the statistics `total` always dominates the length of
the unfiltered listing, and for a student id that has attendance rows but
no `users` row the listing is empty while `total` is positive. -/
theorem listing_vs_statistics (db : DB) (sid : String)
    (huniq : (db.users.filter (fun u => u.student_id == some sid)).length ≤ 1) :
    (get_student_attendance db sid none none).length ≤
      (get_attendance_statistics db sid).total ∧
    ((∀ u ∈ db.users, ¬ u.student_id = some sid) →
      (∃ a ∈ db.attendance, a.student_id = sid) →
      get_student_attendance db sid none none = [] ∧
      0 < (get_attendance_statistics db sid).total) := by
  have hfilter : db.attendance.filter (fun a =>
      a.student_id == sid && inDateRange none none a.date) =
      db.attendance.filter (fun a => a.student_id == sid) := by
    apply List.filter_congr
    intro a _
    simp [inDateRange, activeOpt]
  have htotal : (get_attendance_statistics db sid).total =
      (db.attendance.filter (fun a => a.student_id == sid)).length := by
    simp [get_attendance_statistics, tally_eq]
  constructor
  · have hlen : (get_student_attendance db sid none none).length =
        (((db.attendance.filter (fun a => a.student_id == sid)).map
          (joinName db)).flatten).length := by
      unfold get_student_attendance
      rw [(List.perm_insertionSort studentOrd _).length_eq, hfilter]
    rw [hlen, htotal]
    refine flatten_joinName_length db sid _ ?_ huniq
    intro a ha
    simpa using (List.mem_filter.1 ha).2
  · intro hnouser hex
    constructor
    · apply List.eq_nil_iff_forall_not_mem.2
      intro r hr
      obtain ⟨a, _, hsid, _, u, hu, hsid2, _⟩ :=
        (get_student_attendance_mem db sid none none r).1 hr
      exact hnouser u hu (by rw [hsid2, hsid])
    · rw [htotal]
      obtain ⟨a, ha, hsid⟩ := hex
      apply List.length_pos.2
      intro hnil
      have hmem : a ∈ db.attendance.filter (fun a => a.student_id == sid) :=
        List.mem_filter.2 ⟨ha, by simpa using hsid⟩
      rw [hnil] at hmem
      cases hmem

/-- A store with an attendance row whose student id has no `users` row. -/
def dbOrphan : DB :=
  ⟨[], [⟨1, "S1", "2024-01-01", "Present", "Math", "T", none⟩], 1, 2⟩

/-- C10 witness: the orphan row is invisible to the listing but counted by
the statistics. -/
theorem listing_vs_statistics_witness :
    get_student_attendance dbOrphan "S1" none none = [] ∧
    0 < (get_attendance_statistics dbOrphan "S1").total :=
  (listing_vs_statistics dbOrphan "S1" (by decide)).2 (by decide)
    ⟨⟨1, "S1", "2024-01-01", "Present", "Math", "T", none⟩, by decide, rfl⟩

end AttendanceDB
